import Mathlib

/-!
Mirror delta enumeration and bucket-creation retry of `mc`.

A shallow embedding of `mirror-url.go` (`mirrorURLs`, `mirrorURLs.isEmpty`,
`deltaSourceTargets`) and of the retry loop of `cmd-mb.go` (`doMakeBucketCmd`), followed by
the properties established about them.

Conventions of the embedding.

* A Go pointer that may be nil is an `Option`; dereferencing nil is the explicit outcome
  `Except.error RuntimePanic.nilDereference`.
* The output channel `mirrorURLsCh` is observed through the list of events (`send`, `close`)
  that the producer performs on it, in order, under a consumer that keeps receiving.  The
  same list records the two calls to collaborators that the properties speak about: listing
  the source and consulting the object-difference function.
* Collaborators whose code lives outside the embedded files (`newURL`, `mustExpandAlias`,
  `newClientFromAlias`, `objectDifferenceFactory`, `urlJoinPath`, the error constructors) are
  fields of `Env`; every theorem holds for all of them.
* The function value returned by `objectDifferenceFactory` may keep state between calls, so it
  is embedded in state-passing style over an arbitrary state type `σ`.
* Go strings are embedded as `String`; `strings.HasSuffix` and `strings.TrimPrefix` act on the
  character lists (for valid UTF-8 this agrees with the byte-wise Go functions).
-/

namespace Mc

/-! ## Data model -/

/-- The error value `*probe.Error` of the external package `probe`: a cause and the call trace
that every `Trace` call extends with its arguments. -/
structure probeError where
  Cause : String
  CallTrace : List (List String)
  deriving DecidableEq, Repr

/-- `err.Trace(args...)`: the same error with one more trace record. -/
def probeError.Trace (e : probeError) (args : List String) : probeError :=
  { e with CallTrace := e.CallTrace ++ [args] }

/-- Go's `os.FileMode`, a 32-bit word. -/
abbrev FileMode := Nat

/-- `os.ModeDir`, the top bit of the mode word. -/
def ModeDir : FileMode := 2 ^ 31

/-- `FileMode.IsDir`: `m&ModeDir != 0`. -/
def FileMode.IsDir (m : FileMode) : Bool := Nat.testBit m 31

/-- The parsed URL type `clientURL`, with the fields that `mirror-url.go` reads. -/
structure clientURL where
  Host : String := ""
  Path : String := ""
  Separator : Char := '/'
  deriving DecidableEq, Repr

/-- The record `clientContent` that a listing yields: `URL`, `Size`, `Type` and `Err`
(the field `Type` is spelled `Type_`). -/
structure clientContent where
  URL : clientURL := {}
  Size : Int := 0
  Type_ : FileMode := 0
  Err : Option probeError := none
  deriving DecidableEq, Repr

/-- The struct `mirrorURLs`; absent fields of a composite literal take their zero value. -/
structure mirrorURLs where
  SourceAlias : String := ""
  SourceContent : Option clientContent := none
  TargetAlias : String := ""
  TargetContent : Option clientContent := none
  Error : Option probeError := none
  deriving DecidableEq, Repr

/-- Modelled from the spec: the declaration of the verdict enumeration is not part of the
embedded files, which name `differNone`, `differType` and `differSize`; the spec's DiffVerdict
adds the verdict for an entry that the target lacks, here `differMissing`. -/
inductive differ where
  | differNone
  | differSize
  | differType
  | differMissing
  deriving DecidableEq, Repr

/-- A run-time panic of the Go program. -/
inductive RuntimePanic where
  | nilDereference
  deriving DecidableEq, Repr

/-- The storage client interface, with the two methods `deltaSourceTargets` calls. -/
structure Client where
  GetURL : clientURL
  List : Bool → Bool → List clientContent

/-- The function value `objectDifference` returned by `objectDifferenceFactory`, in
state-passing style: `call s targetURL suffix type size` gives the verdict, the error and the
next state. -/
structure ObjectDifference (σ : Type) where
  init : σ
  call : σ → String → String → FileMode → Int → (differ × Option probeError) × σ

/-- The collaborators of `deltaSourceTargets` defined outside `mirror-url.go`. -/
structure Env (σ : Type) where
  newURL : String → clientURL
  urlString : clientURL → String
  mustExpandAlias : String → String × String
  newClientFromAlias : String → String → Except probeError Client
  objectDifferenceFactory : Client → ObjectDifference σ
  urlJoinPath : String → String → String
  errInvalidTarget : String → probeError
  errOverWriteNotAllowed : String → probeError

/-- What the producer does, in order: operations on `mirrorURLsCh` and the calls to the source
listing and to the object-difference function. -/
inductive Event where
  | list (isRecursive isIncomplete : Bool)
  | objectDifference (targetURL sourceSuffix : String) (type : FileMode) (size : Int)
  | send (u : mirrorURLs)
  | close
  deriving DecidableEq, Repr

/-! ## `mirrorURLs.isEmpty` -/

/-- `mirrorURLs.isEmpty` (mirror-url.go, lines 35-43).  The second test reads
`m.SourceContent.Size` first, which panics when `SourceContent` is nil. -/
def mirrorURLs.isEmpty (m : mirrorURLs) : Except RuntimePanic Bool :=
  if m.SourceContent.isNone && m.TargetContent.isNone && m.Error.isNone then
    .ok true
  else
    match m.SourceContent with
    | none => .error RuntimePanic.nilDereference
    | some sourceContent =>
      if sourceContent.Size == 0 && m.TargetContent.isNone && m.Error.isNone then
        .ok true
      else
        .ok false

/-! ## `deltaSourceTargets` -/

/-- `strings.HasSuffix`. -/
def HasSuffix (s suffix : String) : Bool := suffix.data.isSuffixOf s.data

/-- `strings.TrimPrefix`: `s` without the leading `pre`, or `s` itself. -/
def TrimPrefix (s pre : String) : String :=
  if pre.data.isPrefixOf s.data then ⟨s.data.drop pre.data.length⟩ else s

/-- Lines 95-98 and 99-102: append the URL's separator unless it already ends with it. -/
def withSeparator {σ : Type} (env : Env σ) (url : String) : String :=
  let separator := String.singleton (env.newURL url).Separator
  if !HasSuffix url separator then url ++ separator else url

/-- Lines 95-106 for one of the two URLs: alias and expanded URL. -/
def expand {σ : Type} (env : Env σ) (url : String) : String × String :=
  env.mustExpandAlias (withSeparator env url)

/-- The local variables of `deltaSourceTargets` that the listing loop reads. -/
structure Locals where
  sourceAlias : String
  sourceURL : String
  targetAlias : String
  targetURL : String
  sourceClient : Client

/-- The locals as lines 95-110 compute them. -/
def localsOf {σ : Type} (env : Env σ) (sourceURL targetURL : String) (sourceClient : Client) :
    Locals :=
  { sourceAlias := (expand env sourceURL).1
    sourceURL := (expand env sourceURL).2
    targetAlias := (expand env targetURL).1
    targetURL := (expand env targetURL).2
    sourceClient := sourceClient }

/-- One iteration of the loop of lines 130-168 for the listed `sourceContent`, with the
object-difference function in state `s`: the events performed and the next state. -/
def loopBody {σ : Type} (env : Env σ) (L : Locals) (od : ObjectDifference σ)
    (isForce isFake : Bool) (s : σ) (sourceContent : clientContent) : List Event × σ :=
  match sourceContent.Err with
  | some err =>
    ([Event.send { Error := some (err.Trace [env.urlString L.sourceClient.GetURL]) }], s)
  | none =>
    if sourceContent.Type_.IsDir then
      ([], s)
    else
      let sourceSuffix := TrimPrefix (env.urlString sourceContent.URL) L.sourceURL
      let r := od.call s L.targetURL sourceSuffix sourceContent.Type_ sourceContent.Size
      let called := Event.objectDifference L.targetURL sourceSuffix sourceContent.Type_
        sourceContent.Size
      match r.1.2 with
      | some err =>
        ([called, Event.send { Error := some (err.Trace [env.urlString sourceContent.URL]) }],
          r.2)
      | none =>
        if r.1.1 = differ.differNone then
          ([called], r.2)
        else if r.1.1 = differ.differType then
          ([called, Event.send { Error := some (env.errInvalidTarget sourceSuffix) }], r.2)
        else if r.1.1 = differ.differSize ∧ isForce = false ∧ isFake = false then
          ([called, Event.send
            { Error := some (env.errOverWriteNotAllowed (env.urlString sourceContent.URL)) }],
            r.2)
        else
          let targetPath := env.urlJoinPath L.targetURL sourceSuffix
          let targetContent : clientContent := { URL := env.newURL targetPath }
          ([called, Event.send
            { SourceAlias := L.sourceAlias
              SourceContent := some sourceContent
              TargetAlias := L.targetAlias
              TargetContent := some targetContent }], r.2)

/-- The loop of lines 130-168 over the listed entries. -/
def sourceLoop {σ : Type} (env : Env σ) (L : Locals) (od : ObjectDifference σ)
    (isForce isFake : Bool) : σ → List clientContent → List Event × σ
  | s, [] => ([], s)
  | s, sourceContent :: rest =>
    let r := loopBody env L od isForce isFake s sourceContent
    let r2 := sourceLoop env L od isForce isFake r.2 rest
    (r.1 ++ r2.1, r2.2)

/-- `deltaSourceTargets` (mirror-url.go, lines 93-169): the events of one run.  The deferred
`close` of line 108 runs when the function returns, on every path. -/
def deltaSourceTargets {σ : Type} (env : Env σ) (sourceURL targetURL : String)
    (isForce isFake : Bool) : List Event :=
  let sourceAlias := (expand env sourceURL).1
  let sourceURL1 := (expand env sourceURL).2
  let targetAlias := (expand env targetURL).1
  let targetURL1 := (expand env targetURL).2
  (match env.newClientFromAlias sourceAlias sourceURL1 with
    | .error err => [Event.send { Error := some (err.Trace [sourceAlias, sourceURL1]) }]
    | .ok sourceClient =>
      match env.newClientFromAlias targetAlias targetURL1 with
      | .error err => [Event.send { Error := some (err.Trace [targetAlias, targetURL1]) }]
      | .ok targetClnt =>
        let objectDifferenceTarget := env.objectDifferenceFactory targetClnt
        Event.list true false ::
          (sourceLoop env (localsOf env sourceURL targetURL sourceClient)
            objectDifferenceTarget isForce isFake objectDifferenceTarget.init
            (sourceClient.List true false)).1)
  ++ [Event.close]

/-- The units delivered on the channel: the payloads of the `send` events, in order. -/
def unitsOf : List Event → List mirrorURLs
  | [] => []
  | Event.send u :: rest => u :: unitsOf rest
  | _ :: rest => unitsOf rest

/-- The state of the object-difference function after the loop has processed `xs`. -/
def stateAfter {σ : Type} (env : Env σ) (L : Locals) (od : ObjectDifference σ)
    (s : σ) (xs : List clientContent) : σ :=
  (sourceLoop env L od false false s xs).2

/-- The units the loop emits for the entries `xs`, started in state `s`. -/
def loopUnits {σ : Type} (env : Env σ) (L : Locals) (od : ObjectDifference σ)
    (isForce isFake : Bool) (s : σ) (xs : List clientContent) : List mirrorURLs :=
  unitsOf (sourceLoop env L od isForce isFake s xs).1

/-- The answer of the object-difference function for entry `e` in state `s`, as line 141 asks
for it. -/
def classify {σ : Type} (env : Env σ) (L : Locals) (od : ObjectDifference σ) (s : σ)
    (e : clientContent) : (differ × Option probeError) × σ :=
  od.call s L.targetURL (TrimPrefix (env.urlString e.URL) L.sourceURL) e.Type_ e.Size

/-- The relative path of line 140 for entry `e`. -/
def sourceSuffixOf {σ : Type} (env : Env σ) (L : Locals) (e : clientContent) : String :=
  TrimPrefix (env.urlString e.URL) L.sourceURL

/-- The event of consulting the object-difference function for entry `e` (line 141). -/
def consulted {σ : Type} (env : Env σ) (L : Locals) (e : clientContent) : Event :=
  Event.objectDifference L.targetURL (sourceSuffixOf env L e) e.Type_ e.Size

/-- The copy unit of lines 160-167 for entry `e`. -/
def copyUnit {σ : Type} (env : Env σ) (L : Locals) (e : clientContent) : mirrorURLs :=
  { SourceAlias := L.sourceAlias
    SourceContent := some e
    TargetAlias := L.targetAlias
    TargetContent := some { URL := env.newURL (env.urlJoinPath L.targetURL (sourceSuffixOf env L e)) } }

/-- An error unit, `mirrorURLs{Error: err}`. -/
def errorUnit (err : probeError) : mirrorURLs := { Error := some err }

/-! ## The retry loop of `doMakeBucketCmd` -/

/-- Modelled from the spec: the retry iterator `retries` (its `init` and `retry`) is not part
of cmd-mb.go.  Per the spec's RetryState it is a bounded attempt counter with a fixed ceiling,
5 ("retry - 5 times" in the comment of line 66): `retry()` allows an attempt while attempts
remain and uses one up. -/
def retryCeiling : Nat := 5

/-- Modelled from the spec: `isValidRetry` is not part of cmd-mb.go.  Per the spec's Retry
Policy a call that succeeded (nil error) is not retried, and a failed call is retried exactly
when its error kind is retryable; `retryable` is that classification of error kinds. -/
def isValidRetry {ε : Type} (retryable : ε → Bool) : Option ε → Bool
  | none => false
  | some e => retryable e

/-- The loop of lines 67-73 of cmd-mb.go with `n` attempts left in the iterator, `calls` calls
of `PutBucket` made so far and the current value of `err`.  `PutBucket i` is the outcome of the
call number `i` (counted from 0).  The result is the number of calls made and `err` after the
loop. -/
def retryLoop {ε : Type} (retryable : ε → Bool) (PutBucket : Nat → Option ε) :
    Nat → Nat → Option ε → Nat × Option ε
  | 0, calls, err => (calls, err)
  | n + 1, calls, _ =>
    let err := PutBucket calls
    if !isValidRetry retryable err then
      (calls + 1, err)
    else
      retryLoop retryable PutBucket n (calls + 1) err

/-- Lines 66-73 of `doMakeBucketCmd` for one argument: the retry loop started with a fresh
iterator and `err` nil (line 61 exits the process otherwise).  The result is the number of
`PutBucket` calls and the `err` that line 74 tests. -/
def doMakeBucketCmd {ε : Type} (retryable : ε → Bool) (PutBucket : Nat → Option ε) :
    Nat × Option ε :=
  retryLoop retryable PutBucket retryCeiling 0 none

/-! ## A concrete run

The example of the spec's testable properties: source `a/` holds the folder `a/d/`, `a/x.txt`
(100 bytes) and `a/y.txt` (50 bytes); target `b/` holds `b/x.txt` (80 bytes). -/

/-- The source client of the example. -/
def exampleSource : Client :=
  { GetURL := { Path := "a/" }
    List := fun _ _ =>
      [ { URL := { Path := "a/d/" }, Type_ := ModeDir },
        { URL := { Path := "a/x.txt" }, Size := 100 },
        { URL := { Path := "a/y.txt" }, Size := 50 } ] }

/-- The target client of the example. -/
def exampleTarget : Client :=
  { GetURL := { Path := "b/" }
    List := fun _ _ => [ { URL := { Path := "b/x.txt" }, Size := 80 } ] }

/-- A metadata comparison against the entries `target` holds, as the spec's Diff Classifier
describes it. -/
def exampleDiffer (target : List clientContent) (path : String) (type : FileMode)
    (size : Int) : differ × Option probeError :=
  match target.find? (fun c => c.URL.Path == path) with
  | none => (differ.differMissing, none)
  | some c =>
    if c.Type_.IsDir != type.IsDir then (differ.differType, none)
    else if c.Size != size then (differ.differSize, none)
    else (differ.differNone, none)

/-- A target in which `x.txt` is a folder and `y.txt` matches the source. -/
def exampleTargetFolder : Client :=
  { GetURL := { Path := "t/" }
    List := fun _ _ =>
      [ { URL := { Path := "t/x.txt" }, Type_ := ModeDir },
        { URL := { Path := "t/y.txt" }, Size := 50 } ] }

/-- A target that already matches the source. -/
def exampleTargetSame : Client :=
  { GetURL := { Path := "m/" }
    List := fun _ _ =>
      [ { URL := { Path := "m/x.txt" }, Size := 100 },
        { URL := { Path := "m/y.txt" }, Size := 50 } ] }

/-- A source whose listing reports a failure on `e/x.txt`, followed by `e/y.txt`. -/
def exampleSourceFailing : Client :=
  { GetURL := { Path := "e/" }
    List := fun _ _ =>
      [ { URL := { Path := "e/x.txt" }, Size := 100, Err := some ⟨"permission denied", []⟩ },
        { URL := { Path := "e/y.txt" }, Size := 50 } ] }

/-- A source whose listing reports a failure that names no entry, followed by `f/x.txt` and
`f/y.txt`. -/
def exampleSourceBare : Client :=
  { GetURL := { Path := "f/" }
    List := fun _ _ =>
      [ { Err := some ⟨"permission denied", []⟩ },
        { URL := { Path := "f/x.txt" }, Size := 100 },
        { URL := { Path := "f/y.txt" }, Size := 50 } ] }

/-- The collaborators of the example: URLs are plain paths with separator `/`, aliases are
empty, and only `a/`, `b/`, `t/`, `m/`, `e/` and `f/` resolve to a client. -/
def exampleEnv : Env Unit :=
  { newURL := fun s => { Path := s }
    urlString := fun u => u.Path
    mustExpandAlias := fun s => ("", s)
    newClientFromAlias := fun _ url =>
      if url = "a/" then .ok exampleSource
      else if url = "b/" then .ok exampleTarget
      else if url = "t/" then .ok exampleTargetFolder
      else if url = "m/" then .ok exampleTargetSame
      else if url = "e/" then .ok exampleSourceFailing
      else if url = "f/" then .ok exampleSourceBare
      else .error ⟨"unknown host", []⟩
    objectDifferenceFactory := fun c =>
      { init := ()
        call := fun s targetURL suffix type size =>
          (exampleDiffer (c.List true false) (targetURL ++ suffix) type size, s) }
    urlJoinPath := fun a b => a ++ b
    errInvalidTarget := fun s => ⟨"invalid target", [[s]]⟩
    errOverWriteNotAllowed := fun s => ⟨"overwrite not allowed", [[s]]⟩ }

/-- The folder entry of the example source. -/
def exampleDir : clientContent := { URL := { Path := "a/d/" }, Type_ := ModeDir }

/-- The entry `a/x.txt` of the example source. -/
def exampleX : clientContent := { URL := { Path := "a/x.txt" }, Size := 100 }

/-- The entry `a/y.txt` of the example source. -/
def exampleY : clientContent := { URL := { Path := "a/y.txt" }, Size := 50 }

/-- The locals of the run from `a` to `b`. -/
def exampleLocals : Locals := localsOf exampleEnv "a" "b" exampleSource

/-- The object-difference function of the run from `a` to `b`. -/
def exampleOD : ObjectDifference Unit := exampleEnv.objectDifferenceFactory exampleTarget

/-- The locals of the run from `a` to `t`. -/
def exampleLocalsFolder : Locals := localsOf exampleEnv "a" "t" exampleSource

/-- The object-difference function of the run from `a` to `t`. -/
def exampleODFolder : ObjectDifference Unit :=
  exampleEnv.objectDifferenceFactory exampleTargetFolder

/-- The locals of the run from `e` to `m`. -/
def exampleLocalsFailing : Locals := localsOf exampleEnv "e" "m" exampleSourceFailing

/-- The object-difference function of the runs to `m`. -/
def exampleODSame : ObjectDifference Unit := exampleEnv.objectDifferenceFactory exampleTargetSame

/-- The locals of the run from `a` to `m`. -/
def exampleLocalsSame : Locals := localsOf exampleEnv "a" "m" exampleSource

/-- Outcomes of `PutBucket` in which the first four calls fail with a retryable error
(`true`) and the fifth succeeds. -/
def exampleOutcomes : Nat → Option Bool := fun i => if i < 4 then some true else none

/-! ## Lemmas on the listing loop -/

theorem unitsOf_append (a b : List Event) : unitsOf (a ++ b) = unitsOf a ++ unitsOf b := by
  induction a with
  | nil => rfl
  | cons ev rest ih =>
    cases ev <;> simp [unitsOf, ih]

/-- The next state of one iteration: the object-difference function advances exactly when the
entry reaches line 141. -/
theorem loopBody_snd {σ : Type} (env : Env σ) (L : Locals) (od : ObjectDifference σ)
    (isForce isFake : Bool) (s : σ) (e : clientContent) :
    (loopBody env L od isForce isFake s e).2 =
      if e.Err = none ∧ e.Type_.IsDir = false then (classify env L od s e).2 else s := by
  unfold loopBody classify
  cases herr : e.Err with
  | some err => simp
  | none =>
    cases hdir : e.Type_.IsDir with
    | true => simp
    | false =>
      simp only [Bool.false_eq_true, if_false, and_self, if_true]
      split
      · rfl
      · split_ifs <;> rfl

theorem loopBody_state_flags {σ : Type} (env : Env σ) (L : Locals) (od : ObjectDifference σ)
    (isForce isFake : Bool) (s : σ) (e : clientContent) :
    (loopBody env L od isForce isFake s e).2 = (loopBody env L od false false s e).2 := by
  rw [loopBody_snd, loopBody_snd]

theorem sourceLoop_state_flags {σ : Type} (env : Env σ) (L : Locals) (od : ObjectDifference σ)
    (isForce isFake : Bool) (s : σ) (xs : List clientContent) :
    (sourceLoop env L od isForce isFake s xs).2 = stateAfter env L od s xs := by
  unfold stateAfter
  induction xs generalizing s with
  | nil => rfl
  | cons e rest ih =>
    simp only [sourceLoop]
    rw [ih, loopBody_state_flags env L od isForce isFake s e]

theorem sourceLoop_append {σ : Type} (env : Env σ) (L : Locals) (od : ObjectDifference σ)
    (isForce isFake : Bool) (s : σ) (xs ys : List clientContent) :
    sourceLoop env L od isForce isFake s (xs ++ ys) =
      ((sourceLoop env L od isForce isFake s xs).1 ++
        (sourceLoop env L od isForce isFake (sourceLoop env L od isForce isFake s xs).2 ys).1,
       (sourceLoop env L od isForce isFake (sourceLoop env L od isForce isFake s xs).2 ys).2) := by
  induction xs generalizing s with
  | nil => simp [sourceLoop]
  | cons e rest ih => simp [sourceLoop, ih, List.append_assoc]

/-- An entry whose listing failed: one error unit, the object-difference function untouched. -/
theorem loopBody_listError {σ : Type} (env : Env σ) (L : Locals) (od : ObjectDifference σ)
    (isForce isFake : Bool) (s : σ) (e : clientContent) (err : probeError)
    (herr : e.Err = some err) :
    loopBody env L od isForce isFake s e =
      ([Event.send (errorUnit (err.Trace [env.urlString L.sourceClient.GetURL]))], s) := by
  simp [loopBody, herr, errorUnit]

/-- A directory entry: no event at all. -/
theorem loopBody_dir {σ : Type} (env : Env σ) (L : Locals) (od : ObjectDifference σ)
    (isForce isFake : Bool) (s : σ) (e : clientContent)
    (herr : e.Err = none) (hdir : e.Type_.IsDir = true) :
    loopBody env L od isForce isFake s e = ([], s) := by
  simp [loopBody, herr, hdir]

/-- A failed classification: the call and one error unit. -/
theorem loopBody_classifyError {σ : Type} (env : Env σ) (L : Locals) (od : ObjectDifference σ)
    (isForce isFake : Bool) (s : σ) (e : clientContent) (err : probeError)
    (herr : e.Err = none) (hdir : e.Type_.IsDir = false)
    (hc : (classify env L od s e).1.2 = some err) :
    loopBody env L od isForce isFake s e =
      ([consulted env L e, Event.send (errorUnit (err.Trace [env.urlString e.URL]))],
        (classify env L od s e).2) := by
  unfold classify at hc
  simp [loopBody, herr, hdir, hc, errorUnit, consulted, sourceSuffixOf, classify]

/-- Verdict `differNone`: the call and nothing else. -/
theorem loopBody_differNone {σ : Type} (env : Env σ) (L : Locals) (od : ObjectDifference σ)
    (isForce isFake : Bool) (s : σ) (e : clientContent)
    (herr : e.Err = none) (hdir : e.Type_.IsDir = false)
    (hc : (classify env L od s e).1 = (differ.differNone, none)) :
    loopBody env L od isForce isFake s e = ([consulted env L e], (classify env L od s e).2) := by
  unfold classify at hc
  simp [loopBody, herr, hdir, hc, consulted, sourceSuffixOf, classify]

/-- Verdict `differType`: the call and the invalid-target error unit. -/
theorem loopBody_differType {σ : Type} (env : Env σ) (L : Locals) (od : ObjectDifference σ)
    (isForce isFake : Bool) (s : σ) (e : clientContent)
    (herr : e.Err = none) (hdir : e.Type_.IsDir = false)
    (hc : (classify env L od s e).1 = (differ.differType, none)) :
    loopBody env L od isForce isFake s e =
      ([consulted env L e,
        Event.send (errorUnit (env.errInvalidTarget (sourceSuffixOf env L e)))],
        (classify env L od s e).2) := by
  unfold classify at hc
  simp [loopBody, herr, hdir, hc, errorUnit, consulted, sourceSuffixOf, classify]

/-- Verdict `differSize` with neither flag set: the call and the overwrite error unit. -/
theorem loopBody_differSize_refused {σ : Type} (env : Env σ) (L : Locals)
    (od : ObjectDifference σ) (s : σ) (e : clientContent)
    (herr : e.Err = none) (hdir : e.Type_.IsDir = false)
    (hc : (classify env L od s e).1 = (differ.differSize, none)) :
    loopBody env L od false false s e =
      ([consulted env L e,
        Event.send (errorUnit (env.errOverWriteNotAllowed (env.urlString e.URL)))],
        (classify env L od s e).2) := by
  unfold classify at hc
  simp [loopBody, herr, hdir, hc, errorUnit, consulted, sourceSuffixOf, classify]

/-- Verdict `differSize` with a flag set: the call and the copy unit. -/
theorem loopBody_differSize_copy {σ : Type} (env : Env σ) (L : Locals)
    (od : ObjectDifference σ) (isForce isFake : Bool) (s : σ) (e : clientContent)
    (herr : e.Err = none) (hdir : e.Type_.IsDir = false)
    (hc : (classify env L od s e).1 = (differ.differSize, none))
    (hflag : isForce = true ∨ isFake = true) :
    loopBody env L od isForce isFake s e =
      ([consulted env L e, Event.send (copyUnit env L e)], (classify env L od s e).2) := by
  unfold classify at hc
  rcases hflag with h | h <;>
    simp [loopBody, herr, hdir, hc, h, copyUnit, consulted, sourceSuffixOf, classify]

/-- Verdict `differMissing`: the call and the copy unit. -/
theorem loopBody_differMissing {σ : Type} (env : Env σ) (L : Locals)
    (od : ObjectDifference σ) (isForce isFake : Bool) (s : σ) (e : clientContent)
    (herr : e.Err = none) (hdir : e.Type_.IsDir = false)
    (hc : (classify env L od s e).1 = (differ.differMissing, none)) :
    loopBody env L od isForce isFake s e =
      ([consulted env L e, Event.send (copyUnit env L e)], (classify env L od s e).2) := by
  unfold classify at hc
  simp [loopBody, herr, hdir, hc, copyUnit, consulted, sourceSuffixOf, classify]

/-- With both clients created, a run lists the source, loops over the listing and closes. -/
theorem deltaSourceTargets_started {σ : Type} (env : Env σ) (sourceURL targetURL : String)
    (isForce isFake : Bool) (sourceClient targetClnt : Client)
    (hs : env.newClientFromAlias (expand env sourceURL).1 (expand env sourceURL).2
      = .ok sourceClient)
    (ht : env.newClientFromAlias (expand env targetURL).1 (expand env targetURL).2
      = .ok targetClnt) :
    deltaSourceTargets env sourceURL targetURL isForce isFake =
      Event.list true false ::
        (sourceLoop env (localsOf env sourceURL targetURL sourceClient)
          (env.objectDifferenceFactory targetClnt) isForce isFake
          (env.objectDifferenceFactory targetClnt).init (sourceClient.List true false)).1
      ++ [Event.close] := by
  simp [deltaSourceTargets, hs, ht]

/-- The events of the loop around one entry `e` of the listing `before ++ e :: after`. -/
theorem sourceLoop_split {σ : Type} (env : Env σ) (L : Locals) (od : ObjectDifference σ)
    (isForce isFake : Bool) (s : σ) (before after : List clientContent) (e : clientContent) :
    (sourceLoop env L od isForce isFake s (before ++ e :: after)).1 =
      (sourceLoop env L od isForce isFake s before).1 ++
      (loopBody env L od isForce isFake (stateAfter env L od s before) e).1 ++
      (sourceLoop env L od isForce isFake
        (loopBody env L od isForce isFake (stateAfter env L od s before) e).2 after).1 := by
  rw [sourceLoop_append, sourceLoop_state_flags]
  simp [sourceLoop]

/-- The units of a started run around one entry `e` of the listing. -/
theorem units_split {σ : Type} (env : Env σ) (sourceURL targetURL : String)
    (isForce isFake : Bool) (sourceClient targetClnt : Client)
    (before after : List clientContent) (e : clientContent)
    (hs : env.newClientFromAlias (expand env sourceURL).1 (expand env sourceURL).2
      = .ok sourceClient)
    (ht : env.newClientFromAlias (expand env targetURL).1 (expand env targetURL).2
      = .ok targetClnt)
    (hl : sourceClient.List true false = before ++ e :: after) :
    unitsOf (deltaSourceTargets env sourceURL targetURL isForce isFake) =
      loopUnits env (localsOf env sourceURL targetURL sourceClient)
        (env.objectDifferenceFactory targetClnt) isForce isFake
        (env.objectDifferenceFactory targetClnt).init before ++
      unitsOf (loopBody env (localsOf env sourceURL targetURL sourceClient)
        (env.objectDifferenceFactory targetClnt) isForce isFake
        (stateAfter env (localsOf env sourceURL targetURL sourceClient)
          (env.objectDifferenceFactory targetClnt)
          (env.objectDifferenceFactory targetClnt).init before) e).1 ++
      loopUnits env (localsOf env sourceURL targetURL sourceClient)
        (env.objectDifferenceFactory targetClnt) isForce isFake
        (loopBody env (localsOf env sourceURL targetURL sourceClient)
          (env.objectDifferenceFactory targetClnt) isForce isFake
          (stateAfter env (localsOf env sourceURL targetURL sourceClient)
            (env.objectDifferenceFactory targetClnt)
            (env.objectDifferenceFactory targetClnt).init before) e).2 after := by
  rw [deltaSourceTargets_started env sourceURL targetURL isForce isFake sourceClient targetClnt
    hs ht, hl, sourceLoop_split]
  simp [unitsOf, unitsOf_append, loopUnits]

/-- What one iteration can emit: nothing, one error unit, or the copy unit of an entry that was
listed without error and is not a directory. -/
theorem loopBody_units_cases {σ : Type} (env : Env σ) (L : Locals) (od : ObjectDifference σ)
    (isForce isFake : Bool) (s : σ) (e : clientContent) :
    unitsOf (loopBody env L od isForce isFake s e).1 = [] ∨
    (∃ err, unitsOf (loopBody env L od isForce isFake s e).1 = [errorUnit err]) ∨
    (e.Err = none ∧ e.Type_.IsDir = false ∧
      unitsOf (loopBody env L od isForce isFake s e).1 = [copyUnit env L e]) := by
  unfold loopBody
  cases herr : e.Err with
  | some err => exact Or.inr (Or.inl ⟨_, rfl⟩)
  | none =>
    cases hdir : e.Type_.IsDir with
    | true => exact Or.inl rfl
    | false =>
      simp only [Bool.false_eq_true, if_false]
      split
      · exact Or.inr (Or.inl ⟨_, rfl⟩)
      · split_ifs
        · exact Or.inl rfl
        · exact Or.inr (Or.inl ⟨_, rfl⟩)
        · exact Or.inr (Or.inl ⟨_, rfl⟩)
        · exact Or.inr (Or.inr ⟨trivial, trivial, rfl⟩)

/-- Every unit of the loop that carries a source content carries a listed entry that has no
listing error and is not a directory, and carries no error. -/
theorem sourceLoop_units_content {σ : Type} (env : Env σ) (L : Locals) (od : ObjectDifference σ)
    (isForce isFake : Bool) (s : σ) (xs : List clientContent) :
    ∀ u ∈ unitsOf (sourceLoop env L od isForce isFake s xs).1, ∀ c,
      u.SourceContent = some c →
        c ∈ xs ∧ c.Err = none ∧ c.Type_.IsDir = false ∧ u = copyUnit env L c := by
  induction xs generalizing s with
  | nil => intro u hu; simp [sourceLoop, unitsOf] at hu
  | cons e rest ih =>
    intro u hu c hc
    simp only [sourceLoop, unitsOf_append, List.mem_append] at hu
    rcases hu with hu | hu
    · rcases loopBody_units_cases env L od isForce isFake s e with h | ⟨err, h⟩ | ⟨h1, h2, h⟩
      · rw [h] at hu; simp at hu
      · rw [h] at hu
        simp only [List.mem_singleton] at hu
        subst hu
        simp [errorUnit] at hc
      · rw [h] at hu
        simp only [List.mem_singleton] at hu
        subst hu
        simp only [copyUnit, Option.some.injEq] at hc
        subst hc
        exact ⟨List.mem_cons_self _ _, h1, h2, rfl⟩
    · obtain ⟨h1, h2⟩ := ih _ u hu c hc
      exact ⟨List.mem_cons_of_mem _ h1, h2⟩

/-- The loop emits at most one unit per listed entry. -/
theorem sourceLoop_units_length {σ : Type} (env : Env σ) (L : Locals) (od : ObjectDifference σ)
    (isForce isFake : Bool) (s : σ) (xs : List clientContent) :
    (unitsOf (sourceLoop env L od isForce isFake s xs).1).length ≤ xs.length := by
  induction xs generalizing s with
  | nil => simp [sourceLoop, unitsOf]
  | cons e rest ih =>
    simp only [sourceLoop, unitsOf_append, List.length_append, List.length_cons]
    have h1 : (unitsOf (loopBody env L od isForce isFake s e).1).length ≤ 1 := by
      rcases loopBody_units_cases env L od isForce isFake s e with h | ⟨err, h⟩ | ⟨_, _, h⟩ <;>
        simp [h]
    have h2 := ih (loopBody env L od isForce isFake s e).2
    omega

/-! ## The decisions of `deltaSourceTargets`

In the theorems of this section both clients are created (`hs`, `ht`), `L` and `od` are the
locals and the object-difference function of the run, the source lists `before ++ e :: after`,
and `s` is the state of the object-difference function when the loop reaches `e`.  The units of
the run are then the units for `before`, the units for `e`, and the units for `after`. -/

/-- C1: a non-directory entry listed without error whose classification returns `differSize`
yields exactly one unit: with isForce and isFake both false the overwrite-not-allowed error unit
(no source or target content), and with isForce or isFake true the copy unit (Error nil,
SourceContent the entry, TargetContent set). -/
theorem deltaSourceTargets_differSize
    {σ : Type} (env : Env σ) (sourceURL targetURL : String) (isForce isFake : Bool)
    (sourceClient targetClnt : Client) (L : Locals) (od : ObjectDifference σ)
    (before after : List clientContent) (e : clientContent) (s : σ)
    (hs : env.newClientFromAlias (expand env sourceURL).1 (expand env sourceURL).2
      = .ok sourceClient)
    (ht : env.newClientFromAlias (expand env targetURL).1 (expand env targetURL).2
      = .ok targetClnt)
    (hL : L = localsOf env sourceURL targetURL sourceClient)
    (hod : od = env.objectDifferenceFactory targetClnt)
    (hl : sourceClient.List true false = before ++ e :: after)
    (hstate : s = stateAfter env L od od.init before)
    (herr : e.Err = none)
    (hdir : e.Type_.IsDir = false)
    (hc : (classify env L od s e).1 = (differ.differSize, none)) :
    (isForce = false ∧ isFake = false →
      unitsOf (deltaSourceTargets env sourceURL targetURL isForce isFake) =
        loopUnits env L od isForce isFake od.init before ++
        [{ Error := some (env.errOverWriteNotAllowed (env.urlString e.URL)) }] ++
        loopUnits env L od isForce isFake (classify env L od s e).2 after) ∧
    (isForce = true ∨ isFake = true →
      unitsOf (deltaSourceTargets env sourceURL targetURL isForce isFake) =
        loopUnits env L od isForce isFake od.init before ++
        [copyUnit env L e] ++
        loopUnits env L od isForce isFake (classify env L od s e).2 after) ∧
    (copyUnit env L e).Error = none ∧
    (copyUnit env L e).SourceContent = some e ∧
    (copyUnit env L e).TargetContent.isSome = true := by
  subst hL hod hstate
  refine ⟨?_, ?_, rfl, rfl, rfl⟩
  · rintro ⟨h1, h2⟩
    subst h1 h2
    rw [units_split env sourceURL targetURL false false sourceClient targetClnt before after e
      hs ht hl, loopBody_differSize_refused env _ _ _ e herr hdir hc]
    simp [unitsOf, errorUnit]
  · intro hflag
    rw [units_split env sourceURL targetURL isForce isFake sourceClient targetClnt before after e
      hs ht hl, loopBody_differSize_copy env _ _ isForce isFake _ e herr hdir hc hflag]
    simp [unitsOf]

/-- C2: a non-directory entry whose classification returns `differType` yields exactly one
unit, the invalid-target error unit, whatever isForce and isFake are; it carries no source or
target content, so it is no copy unit. -/
theorem deltaSourceTargets_differType
    {σ : Type} (env : Env σ) (sourceURL targetURL : String) (isForce isFake : Bool)
    (sourceClient targetClnt : Client) (L : Locals) (od : ObjectDifference σ)
    (before after : List clientContent) (e : clientContent) (s : σ)
    (hs : env.newClientFromAlias (expand env sourceURL).1 (expand env sourceURL).2
      = .ok sourceClient)
    (ht : env.newClientFromAlias (expand env targetURL).1 (expand env targetURL).2
      = .ok targetClnt)
    (hL : L = localsOf env sourceURL targetURL sourceClient)
    (hod : od = env.objectDifferenceFactory targetClnt)
    (hl : sourceClient.List true false = before ++ e :: after)
    (hstate : s = stateAfter env L od od.init before)
    (herr : e.Err = none)
    (hdir : e.Type_.IsDir = false)
    (hc : (classify env L od s e).1 = (differ.differType, none)) :
    unitsOf (deltaSourceTargets env sourceURL targetURL isForce isFake) =
      loopUnits env L od isForce isFake od.init before ++
      [{ Error := some (env.errInvalidTarget (TrimPrefix (env.urlString e.URL) L.sourceURL)) }] ++
      loopUnits env L od isForce isFake (classify env L od s e).2 after := by
  subst hL hod hstate
  rw [units_split env sourceURL targetURL isForce isFake sourceClient targetClnt before after e
    hs ht hl, loopBody_differType env _ _ isForce isFake _ e herr hdir hc]
  simp [unitsOf, errorUnit, sourceSuffixOf]

/-- C3: a non-directory entry that the target lacks (classification returns `differMissing`)
yields exactly one unit, a copy unit, whatever isForce and isFake are: Error nil, the two
expanded aliases, SourceContent the listed entry, and TargetContent with the URL made from the
expanded target URL joined with the entry URL stripped of the expanded source URL. -/
theorem deltaSourceTargets_differMissing
    {σ : Type} (env : Env σ) (sourceURL targetURL : String) (isForce isFake : Bool)
    (sourceClient targetClnt : Client) (L : Locals) (od : ObjectDifference σ)
    (before after : List clientContent) (e : clientContent) (s : σ)
    (hs : env.newClientFromAlias (expand env sourceURL).1 (expand env sourceURL).2
      = .ok sourceClient)
    (ht : env.newClientFromAlias (expand env targetURL).1 (expand env targetURL).2
      = .ok targetClnt)
    (hL : L = localsOf env sourceURL targetURL sourceClient)
    (hod : od = env.objectDifferenceFactory targetClnt)
    (hl : sourceClient.List true false = before ++ e :: after)
    (hstate : s = stateAfter env L od od.init before)
    (herr : e.Err = none)
    (hdir : e.Type_.IsDir = false)
    (hc : (classify env L od s e).1 = (differ.differMissing, none)) :
    unitsOf (deltaSourceTargets env sourceURL targetURL isForce isFake) =
      loopUnits env L od isForce isFake od.init before ++
      [{ SourceAlias := (expand env sourceURL).1
         SourceContent := some e
         TargetAlias := (expand env targetURL).1
         TargetContent := some
           { URL := env.newURL (env.urlJoinPath (expand env targetURL).2
               (TrimPrefix (env.urlString e.URL) (expand env sourceURL).2)) }
         Error := none }] ++
      loopUnits env L od isForce isFake (classify env L od s e).2 after := by
  subst hL hod hstate
  rw [units_split env sourceURL targetURL isForce isFake sourceClient targetClnt before after e
    hs ht hl, loopBody_differMissing env _ _ isForce isFake _ e herr hdir hc]
  simp [unitsOf, copyUnit, sourceSuffixOf, localsOf]

/-- C5: a directory entry listed without error contributes no event to the run: no unit and no
call of the object-difference function, whose state it leaves as it was; and every unit of the
run that carries a SourceContent carries a listed non-directory entry. -/
theorem deltaSourceTargets_directory
    {σ : Type} (env : Env σ) (sourceURL targetURL : String) (isForce isFake : Bool)
    (sourceClient targetClnt : Client) (L : Locals) (od : ObjectDifference σ)
    (before after : List clientContent) (e : clientContent) (s : σ)
    (hs : env.newClientFromAlias (expand env sourceURL).1 (expand env sourceURL).2
      = .ok sourceClient)
    (ht : env.newClientFromAlias (expand env targetURL).1 (expand env targetURL).2
      = .ok targetClnt)
    (hL : L = localsOf env sourceURL targetURL sourceClient)
    (hod : od = env.objectDifferenceFactory targetClnt)
    (hl : sourceClient.List true false = before ++ e :: after)
    (hstate : s = stateAfter env L od od.init before)
    (herr : e.Err = none)
    (hdir : e.Type_.IsDir = true) :
    deltaSourceTargets env sourceURL targetURL isForce isFake =
      Event.list true false ::
        ((sourceLoop env L od isForce isFake od.init before).1 ++
         (sourceLoop env L od isForce isFake s after).1) ++ [Event.close] ∧
    unitsOf (deltaSourceTargets env sourceURL targetURL isForce isFake) =
      loopUnits env L od isForce isFake od.init before ++
      loopUnits env L od isForce isFake s after ∧
    ∀ u ∈ unitsOf (deltaSourceTargets env sourceURL targetURL isForce isFake), ∀ c,
      u.SourceContent = some c →
        c ∈ sourceClient.List true false ∧ c.Err = none ∧ c.Type_.IsDir = false := by
  subst hL hod hstate
  have hrun := deltaSourceTargets_started env sourceURL targetURL isForce isFake sourceClient
    targetClnt hs ht
  refine ⟨?_, ?_, ?_⟩
  · rw [hrun, hl, sourceLoop_split, loopBody_dir env _ _ isForce isFake _ e herr hdir]
    simp
  · rw [units_split env sourceURL targetURL isForce isFake sourceClient targetClnt before after e
      hs ht hl, loopBody_dir env _ _ isForce isFake _ e herr hdir]
    simp [unitsOf]
  · intro u hu c hc
    rw [hrun, List.cons_append] at hu
    simp only [unitsOf, unitsOf_append, List.append_nil] at hu
    obtain ⟨h1, h2, h3, _⟩ := sourceLoop_units_content env _ _ isForce isFake _ _ u hu c hc
    exact ⟨h1, h2, h3⟩

/-- The run from `a` to `b`: `a/x.txt` differs in size.  Without flags it yields the overwrite
error unit, with isForce the copy unit; `a/y.txt` is copied in both runs. -/
theorem deltaSourceTargets_differSize_witness :
    exampleEnv.newClientFromAlias (expand exampleEnv "a").1 (expand exampleEnv "a").2
      = .ok exampleSource ∧
    exampleEnv.newClientFromAlias (expand exampleEnv "b").1 (expand exampleEnv "b").2
      = .ok exampleTarget ∧
    exampleSource.List true false = [exampleDir] ++ exampleX :: [exampleY] ∧
    exampleX.Err = none ∧ exampleX.Type_.IsDir = false ∧
    (classify exampleEnv exampleLocals exampleOD () exampleX).1 = (differ.differSize, none) ∧
    unitsOf (deltaSourceTargets exampleEnv "a" "b" false false) =
      [{ Error := some ⟨"overwrite not allowed", [["a/x.txt"]]⟩ },
       copyUnit exampleEnv exampleLocals exampleY] ∧
    unitsOf (deltaSourceTargets exampleEnv "a" "b" true false) =
      [copyUnit exampleEnv exampleLocals exampleX,
       copyUnit exampleEnv exampleLocals exampleY] :=
  ⟨rfl, rfl, rfl, rfl, rfl, rfl,
    (deltaSourceTargets_differSize exampleEnv "a" "b" false false exampleSource exampleTarget
      exampleLocals exampleOD [exampleDir] [exampleY] exampleX () rfl rfl rfl rfl rfl rfl rfl
      rfl rfl).1 ⟨rfl, rfl⟩,
    (deltaSourceTargets_differSize exampleEnv "a" "b" true false exampleSource exampleTarget
      exampleLocals exampleOD [exampleDir] [exampleY] exampleX () rfl rfl rfl rfl rfl rfl rfl
      rfl rfl).2.1 (Or.inl rfl)⟩

/-- The run from `a` to `t`: `t/x.txt` is a folder, so `a/x.txt` yields the invalid-target
error unit, also with isForce and isFake set; `a/y.txt` matches and yields nothing. -/
theorem deltaSourceTargets_differType_witness :
    exampleEnv.newClientFromAlias (expand exampleEnv "a").1 (expand exampleEnv "a").2
      = .ok exampleSource ∧
    exampleEnv.newClientFromAlias (expand exampleEnv "t").1 (expand exampleEnv "t").2
      = .ok exampleTargetFolder ∧
    exampleSource.List true false = [exampleDir] ++ exampleX :: [exampleY] ∧
    exampleX.Err = none ∧ exampleX.Type_.IsDir = false ∧
    (classify exampleEnv exampleLocalsFolder exampleODFolder () exampleX).1
      = (differ.differType, none) ∧
    unitsOf (deltaSourceTargets exampleEnv "a" "t" true true) =
      [{ Error := some ⟨"invalid target", [["x.txt"]]⟩ }] :=
  ⟨rfl, rfl, rfl, rfl, rfl, rfl,
    deltaSourceTargets_differType exampleEnv "a" "t" true true exampleSource exampleTargetFolder
      exampleLocalsFolder exampleODFolder [exampleDir] [exampleY] exampleX () rfl rfl rfl rfl
      rfl rfl rfl rfl rfl⟩

/-- The run from `a` to `b`: `b/` has no `y.txt`, so `a/y.txt` yields the copy unit to
`b/y.txt`, here without flags. -/
theorem deltaSourceTargets_differMissing_witness :
    exampleEnv.newClientFromAlias (expand exampleEnv "a").1 (expand exampleEnv "a").2
      = .ok exampleSource ∧
    exampleEnv.newClientFromAlias (expand exampleEnv "b").1 (expand exampleEnv "b").2
      = .ok exampleTarget ∧
    exampleSource.List true false = [exampleDir, exampleX] ++ exampleY :: [] ∧
    exampleY.Err = none ∧ exampleY.Type_.IsDir = false ∧
    (classify exampleEnv exampleLocals exampleOD () exampleY).1
      = (differ.differMissing, none) ∧
    unitsOf (deltaSourceTargets exampleEnv "a" "b" false false) =
      [{ Error := some ⟨"overwrite not allowed", [["a/x.txt"]]⟩ },
       { SourceAlias := ""
         SourceContent := some { URL := { Path := "a/y.txt" }, Size := 50 }
         TargetAlias := ""
         TargetContent := some { URL := { Path := "b/y.txt" } }
         Error := none }] :=
  ⟨rfl, rfl, rfl, rfl, rfl, rfl,
    deltaSourceTargets_differMissing exampleEnv "a" "b" false false exampleSource exampleTarget
      exampleLocals exampleOD [exampleDir, exampleX] [] exampleY () rfl rfl rfl rfl
      rfl rfl rfl rfl rfl⟩

/-- The run from `a` to `b`: the folder `a/d/` contributes no event; the events of the run
are those of `a/x.txt` and `a/y.txt`. -/
theorem deltaSourceTargets_directory_witness :
    exampleEnv.newClientFromAlias (expand exampleEnv "a").1 (expand exampleEnv "a").2
      = .ok exampleSource ∧
    exampleEnv.newClientFromAlias (expand exampleEnv "b").1 (expand exampleEnv "b").2
      = .ok exampleTarget ∧
    exampleSource.List true false = [] ++ exampleDir :: [exampleX, exampleY] ∧
    exampleDir.Err = none ∧ exampleDir.Type_.IsDir = true ∧
    deltaSourceTargets exampleEnv "a" "b" true false =
      [Event.list true false,
       Event.objectDifference "b/" "x.txt" 0 100,
       Event.send (copyUnit exampleEnv exampleLocals exampleX),
       Event.objectDifference "b/" "y.txt" 0 50,
       Event.send (copyUnit exampleEnv exampleLocals exampleY),
       Event.close] :=
  ⟨rfl, rfl, rfl, rfl, rfl,
    (deltaSourceTargets_directory exampleEnv "a" "b" true false exampleSource exampleTarget
      exampleLocals exampleOD [] [exampleX, exampleY] exampleDir () rfl rfl rfl rfl
      rfl rfl rfl rfl).1⟩

/-! ## Client creation failures and the closing of the channel -/

/-- C6, as stated, fails: when the source client cannot be created (no client for `c/`), the
run delivers one unit, the error unit of line 112, so the delivered sequence is not empty. -/
theorem deltaSourceTargets_clientError_counterexample :
    exampleEnv.newClientFromAlias (expand exampleEnv "c").1 (expand exampleEnv "c").2
      = .error ⟨"unknown host", []⟩ ∧
    unitsOf (deltaSourceTargets exampleEnv "c" "b" false false) =
      [{ Error := some ⟨"unknown host", [["", "c/"]]⟩ }] ∧
    unitsOf (deltaSourceTargets exampleEnv "c" "b" false false) ≠ [] :=
  ⟨rfl, rfl, by decide⟩

/-- C6, amended: when creating the source client fails, or creating the target client fails
after the source client was created, the run consists of exactly two events: sending one error
unit that carries the creation error, traced with the alias and the expanded URL, and closing
the channel.  The source is not listed and the object-difference function is not consulted. -/
theorem deltaSourceTargets_clientError {σ : Type} (env : Env σ) (sourceURL targetURL : String)
    (isForce isFake : Bool) :
    (∀ err, env.newClientFromAlias (expand env sourceURL).1 (expand env sourceURL).2
        = .error err →
      deltaSourceTargets env sourceURL targetURL isForce isFake =
        [Event.send
          { Error := some (err.Trace [(expand env sourceURL).1, (expand env sourceURL).2]) },
         Event.close]) ∧
    (∀ sourceClient err,
      env.newClientFromAlias (expand env sourceURL).1 (expand env sourceURL).2
        = .ok sourceClient →
      env.newClientFromAlias (expand env targetURL).1 (expand env targetURL).2
        = .error err →
      deltaSourceTargets env sourceURL targetURL isForce isFake =
        [Event.send
          { Error := some (err.Trace [(expand env targetURL).1, (expand env targetURL).2]) },
         Event.close]) := by
  constructor
  · intro err h
    simp [deltaSourceTargets, h]
  · intro sourceClient err h1 h2
    simp [deltaSourceTargets, h1, h2]

/-- Runs of the example with no client for `c/`, as source and as target. -/
theorem deltaSourceTargets_clientError_witness :
    exampleEnv.newClientFromAlias (expand exampleEnv "c").1 (expand exampleEnv "c").2
      = .error ⟨"unknown host", []⟩ ∧
    exampleEnv.newClientFromAlias (expand exampleEnv "a").1 (expand exampleEnv "a").2
      = .ok exampleSource ∧
    deltaSourceTargets exampleEnv "c" "b" true false =
      [Event.send { Error := some ⟨"unknown host", [["", "c/"]]⟩ }, Event.close] ∧
    deltaSourceTargets exampleEnv "a" "c" true false =
      [Event.send { Error := some ⟨"unknown host", [["", "c/"]]⟩ }, Event.close] :=
  ⟨rfl, rfl,
    (deltaSourceTargets_clientError exampleEnv "c" "b" true false).1 _ rfl,
    (deltaSourceTargets_clientError exampleEnv "a" "c" true false).2 _ _ rfl rfl⟩

/-- No iteration of the loop closes the channel. -/
theorem loopBody_no_close {σ : Type} (env : Env σ) (L : Locals) (od : ObjectDifference σ)
    (isForce isFake : Bool) (s : σ) (e : clientContent) :
    Event.close ∉ (loopBody env L od isForce isFake s e).1 := by
  unfold loopBody
  cases herr : e.Err with
  | some err => simp
  | none =>
    cases hdir : e.Type_.IsDir with
    | true => simp
    | false =>
      simp only [Bool.false_eq_true, if_false]
      split
      · simp
      · split_ifs <;> simp

/-- The loop does not close the channel. -/
theorem sourceLoop_no_close {σ : Type} (env : Env σ) (L : Locals) (od : ObjectDifference σ)
    (isForce isFake : Bool) (s : σ) (xs : List clientContent) :
    Event.close ∉ (sourceLoop env L od isForce isFake s xs).1 := by
  induction xs generalizing s with
  | nil => simp [sourceLoop]
  | cons e rest ih =>
    simp only [sourceLoop, List.mem_append, not_or]
    exact ⟨loopBody_no_close env L od isForce isFake s e, ih _⟩

/-- C7: in every run, whether a client creation fails or the loop runs over any listing, the
events are some events without a close followed by one close: the channel is closed exactly
once, the close is the last event, and no send follows it. -/
theorem deltaSourceTargets_closes_once {σ : Type} (env : Env σ) (sourceURL targetURL : String)
    (isForce isFake : Bool) :
    (∃ earlier, deltaSourceTargets env sourceURL targetURL isForce isFake
        = earlier ++ [Event.close] ∧ Event.close ∉ earlier) ∧
    (deltaSourceTargets env sourceURL targetURL isForce isFake).count Event.close = 1 ∧
    (deltaSourceTargets env sourceURL targetURL isForce isFake).getLast? = some Event.close := by
  have key : ∃ earlier, deltaSourceTargets env sourceURL targetURL isForce isFake
      = earlier ++ [Event.close] ∧ Event.close ∉ earlier := by
    unfold deltaSourceTargets
    refine ⟨_, rfl, ?_⟩
    split
    · simp
    · split
      · simp
      · simp only [List.mem_cons, not_or]
        exact ⟨by simp, sourceLoop_no_close _ _ _ _ _ _ _⟩
  obtain ⟨earlier, h1, h2⟩ := key
  refine ⟨⟨earlier, h1, h2⟩, ?_, ?_⟩
  · rw [h1, List.count_append, List.count_eq_zero_of_not_mem h2]
    simp
  · rw [h1]
    simp

/-! ## The run as a concatenation of per-entry outcomes -/

/-- The units of the loop for `xs ++ ys`: those for `xs`, then those for `ys` from the state
that `xs` leaves. -/
theorem loopUnits_append {σ : Type} (env : Env σ) (L : Locals) (od : ObjectDifference σ)
    (isForce isFake : Bool) (s : σ) (xs ys : List clientContent) :
    loopUnits env L od isForce isFake s (xs ++ ys) =
      loopUnits env L od isForce isFake s xs ++
      loopUnits env L od isForce isFake (stateAfter env L od s xs) ys := by
  simp only [loopUnits]
  rw [sourceLoop_append, unitsOf_append, sourceLoop_state_flags]

/-- The units of the loop for `e :: ys`: those of the iteration for `e`, then those for `ys`. -/
theorem loopUnits_cons {σ : Type} (env : Env σ) (L : Locals) (od : ObjectDifference σ)
    (isForce isFake : Bool) (s : σ) (e : clientContent) (ys : List clientContent) :
    loopUnits env L od isForce isFake s (e :: ys) =
      unitsOf (loopBody env L od isForce isFake s e).1 ++
      loopUnits env L od isForce isFake (loopBody env L od isForce isFake s e).2 ys := by
  simp only [loopUnits, sourceLoop, unitsOf_append]

/-- The units of one iteration are determined by the entry, the answer of the
object-difference function for it, and the two flags. -/
theorem loopBody_units_congr {σ : Type} (env : Env σ) (L : Locals)
    (od od2 : ObjectDifference σ) (isForce isFake : Bool) (s s2 : σ) (e : clientContent)
    (h : (classify env L od s e).1 = (classify env L od2 s2 e).1) :
    unitsOf (loopBody env L od isForce isFake s e).1 =
      unitsOf (loopBody env L od2 isForce isFake s2 e).1 := by
  unfold classify at h
  unfold loopBody
  cases herr : e.Err with
  | some err => rfl
  | none =>
    cases hdir : e.Type_.IsDir with
    | true => rfl
    | false =>
      simp only [Bool.false_eq_true, if_false]
      rw [h]
      split
      · rfl
      · split_ifs <;> rfl

/-- C8: once both clients are created, the units of the run are those of the loop over the
listing, and the loop output is a concatenation of per-entry outcomes: the output for
`xs ++ ys` is the output for `xs` followed by the output for `ys` (the object-difference
function continuing from the state `xs` leaves); one entry yields at most one unit, which is
determined by the entry, the answer of the object-difference function for it and the flags; an
entry whose listing fails, or whose classification fails, yields exactly one error unit between
the units of the entries before it and those of the entries after it; and the run emits at most
as many units as the listing has entries. -/
theorem deltaSourceTargets_per_entry {σ : Type} (env : Env σ) (sourceURL targetURL : String)
    (isForce isFake : Bool) (sourceClient targetClnt : Client) (L : Locals)
    (od : ObjectDifference σ)
    (hs : env.newClientFromAlias (expand env sourceURL).1 (expand env sourceURL).2
      = .ok sourceClient)
    (ht : env.newClientFromAlias (expand env targetURL).1 (expand env targetURL).2
      = .ok targetClnt)
    (hL : L = localsOf env sourceURL targetURL sourceClient)
    (hod : od = env.objectDifferenceFactory targetClnt) :
    unitsOf (deltaSourceTargets env sourceURL targetURL isForce isFake) =
      loopUnits env L od isForce isFake od.init (sourceClient.List true false) ∧
    (∀ s xs ys, loopUnits env L od isForce isFake s (xs ++ ys) =
      loopUnits env L od isForce isFake s xs ++
      loopUnits env L od isForce isFake (stateAfter env L od s xs) ys) ∧
    (∀ s e, (loopUnits env L od isForce isFake s [e]).length ≤ 1) ∧
    (∀ (od2 : ObjectDifference σ) s s2 e,
      (classify env L od s e).1 = (classify env L od2 s2 e).1 →
      loopUnits env L od isForce isFake s [e] = loopUnits env L od2 isForce isFake s2 [e]) ∧
    (∀ s xs ys e err, e.Err = some err →
      loopUnits env L od isForce isFake s (xs ++ e :: ys) =
        loopUnits env L od isForce isFake s xs ++
        [{ Error := some (err.Trace [env.urlString L.sourceClient.GetURL]) }] ++
        loopUnits env L od isForce isFake (stateAfter env L od s xs) ys) ∧
    (∀ s xs ys e err, e.Err = none → e.Type_.IsDir = false →
      (classify env L od (stateAfter env L od s xs) e).1.2 = some err →
      loopUnits env L od isForce isFake s (xs ++ e :: ys) =
        loopUnits env L od isForce isFake s xs ++
        [{ Error := some (err.Trace [env.urlString e.URL]) }] ++
        loopUnits env L od isForce isFake
          (classify env L od (stateAfter env L od s xs) e).2 ys) ∧
    (unitsOf (deltaSourceTargets env sourceURL targetURL isForce isFake)).length ≤
      (sourceClient.List true false).length := by
  subst hL hod
  have hrun : unitsOf (deltaSourceTargets env sourceURL targetURL isForce isFake) =
      loopUnits env (localsOf env sourceURL targetURL sourceClient)
        (env.objectDifferenceFactory targetClnt) isForce isFake
        (env.objectDifferenceFactory targetClnt).init (sourceClient.List true false) := by
    rw [deltaSourceTargets_started env sourceURL targetURL isForce isFake sourceClient
      targetClnt hs ht, List.cons_append]
    simp [unitsOf, unitsOf_append, loopUnits]
  refine ⟨hrun, ?_, ?_, ?_, ?_, ?_, ?_⟩
  · intro s xs ys
    exact loopUnits_append _ _ _ _ _ s xs ys
  · intro s e
    exact sourceLoop_units_length _ _ _ _ _ s [e]
  · intro od2 s s2 e h
    rw [loopUnits_cons, loopUnits_cons, loopBody_units_congr _ _ _ od2 _ _ s s2 e h]
    simp [loopUnits, sourceLoop, unitsOf]
  · intro s xs ys e err herr
    rw [loopUnits_append, loopUnits_cons, loopBody_listError _ _ _ _ _ _ e err herr]
    simp [unitsOf, errorUnit]
  · intro s xs ys e err herr hdir hc
    rw [loopUnits_append, loopUnits_cons,
      loopBody_classifyError _ _ _ _ _ _ e err herr hdir hc]
    simp [unitsOf, errorUnit]
  · rw [hrun]
    exact sourceLoop_units_length _ _ _ _ _ _ _

/-- The run from `e` to `m`: the failed listing of `e/x.txt` yields one error unit, and
`e/y.txt`, which matches, yields nothing. -/
theorem deltaSourceTargets_per_entry_witness :
    exampleEnv.newClientFromAlias (expand exampleEnv "e").1 (expand exampleEnv "e").2
      = .ok exampleSourceFailing ∧
    exampleEnv.newClientFromAlias (expand exampleEnv "m").1 (expand exampleEnv "m").2
      = .ok exampleTargetSame ∧
    unitsOf (deltaSourceTargets exampleEnv "e" "m" false false) =
      [{ Error := some ⟨"permission denied", [["e/"]]⟩ }] ∧
    (unitsOf (deltaSourceTargets exampleEnv "e" "m" false false)).length ≤ 2 :=
  ⟨rfl, rfl,
    (deltaSourceTargets_per_entry exampleEnv "e" "m" false false exampleSourceFailing
      exampleTargetSame exampleLocalsFailing exampleODSame rfl rfl rfl rfl).1,
    (deltaSourceTargets_per_entry exampleEnv "e" "m" false false exampleSourceFailing
      exampleTargetSame exampleLocalsFailing exampleODSame rfl rfl rfl rfl).2.2.2.2.2.2⟩

/-! ## Idempotence -/

/-- With every entry listed without error and every classification of a non-directory entry
returning `differNone`, the loop emits nothing. -/
theorem loopUnits_all_none {σ : Type} (env : Env σ) (L : Locals) (od : ObjectDifference σ)
    (isForce isFake : Bool) (s : σ) (xs : List clientContent)
    (hok : ∀ c ∈ xs, c.Err = none)
    (hnone : ∀ before c after, xs = before ++ c :: after → c.Type_.IsDir = false →
      (classify env L od (stateAfter env L od s before) c).1 = (differ.differNone, none)) :
    loopUnits env L od isForce isFake s xs = [] := by
  induction xs generalizing s with
  | nil => rfl
  | cons e rest ih =>
    rw [loopUnits_cons]
    have herr : e.Err = none := hok e (List.mem_cons_self _ _)
    have hrest : loopUnits env L od isForce isFake
        (loopBody env L od isForce isFake s e).2 rest = [] := by
      apply ih
      · intro c hc
        exact hok c (List.mem_cons_of_mem _ hc)
      · intro before c after hsplit hdir
        have h := hnone (e :: before) c after (by rw [hsplit]; rfl) hdir
        have hst : stateAfter env L od s (e :: before) =
            stateAfter env L od (loopBody env L od isForce isFake s e).2 before := by
          rw [loopBody_state_flags]
          rfl
        rw [hst] at h
        exact h
    rw [hrest]
    cases hdir : e.Type_.IsDir with
    | true => rw [loopBody_dir env L od isForce isFake s e herr hdir]; rfl
    | false =>
      have h := hnone [] e rest rfl hdir
      rw [loopBody_differNone env L od isForce isFake s e herr hdir h]
      rfl

/-- C4, as stated, fails.  In the run from `e` to `m` every listed entry is a non-directory
entry whose target counterpart has the same type and size; the listing of `e/x.txt` reports a
failure, and the run emits one unit, the error unit of lines 132-134, also with isForce set.
In the run from `f` to `m` the listing reports a failure that names no entry before the two
matching files: every classification the run performs returns `differNone`, and the run emits
the same kind of unit. -/
theorem deltaSourceTargets_idempotent_counterexample :
    (∀ c ∈ exampleSourceFailing.List true false, c.Type_.IsDir = false ∧
      (classify exampleEnv exampleLocalsFailing exampleODSame () c).1
        = (differ.differNone, none)) ∧
    deltaSourceTargets exampleEnv "e" "m" true false =
      [Event.list true false,
       Event.send { Error := some ⟨"permission denied", [["e/"]]⟩ },
       Event.objectDifference "m/" "y.txt" 0 50,
       Event.close] ∧
    unitsOf (deltaSourceTargets exampleEnv "e" "m" true false) ≠ [] ∧
    (exampleODSame.call () "m/" "x.txt" 0 100).1 = (differ.differNone, none) ∧
    (exampleODSame.call () "m/" "y.txt" 0 50).1 = (differ.differNone, none) ∧
    deltaSourceTargets exampleEnv "f" "m" true false =
      [Event.list true false,
       Event.send { Error := some ⟨"permission denied", [["f/"]]⟩ },
       Event.objectDifference "m/" "x.txt" 0 100,
       Event.objectDifference "m/" "y.txt" 0 50,
       Event.close] ∧
    unitsOf (deltaSourceTargets exampleEnv "f" "m" true false) ≠ [] :=
  ⟨by decide, rfl, by decide, rfl, rfl, rfl, by decide⟩

/-- C4, amended: when every entry is listed without error and the classification of every
non-directory entry (in the state the object-difference function has when the loop reaches it)
returns `differNone`, the run emits no unit, whatever isForce and isFake are. -/
theorem deltaSourceTargets_idempotent {σ : Type} (env : Env σ) (sourceURL targetURL : String)
    (isForce isFake : Bool) (sourceClient targetClnt : Client) (L : Locals)
    (od : ObjectDifference σ)
    (hs : env.newClientFromAlias (expand env sourceURL).1 (expand env sourceURL).2
      = .ok sourceClient)
    (ht : env.newClientFromAlias (expand env targetURL).1 (expand env targetURL).2
      = .ok targetClnt)
    (hL : L = localsOf env sourceURL targetURL sourceClient)
    (hod : od = env.objectDifferenceFactory targetClnt)
    (hok : ∀ c ∈ sourceClient.List true false, c.Err = none)
    (hnone : ∀ before c after, sourceClient.List true false = before ++ c :: after →
      c.Type_.IsDir = false →
      (classify env L od (stateAfter env L od od.init before) c).1
        = (differ.differNone, none)) :
    unitsOf (deltaSourceTargets env sourceURL targetURL isForce isFake) = [] := by
  subst hL hod
  rw [deltaSourceTargets_started env sourceURL targetURL isForce isFake sourceClient
    targetClnt hs ht, List.cons_append]
  simp only [unitsOf, unitsOf_append, List.append_nil]
  exact loopUnits_all_none _ _ _ isForce isFake _ _ hok hnone

/-- A run from `a` to `m`, a target that matches the source: no unit, with and without
isForce. -/
theorem deltaSourceTargets_idempotent_witness :
    exampleEnv.newClientFromAlias (expand exampleEnv "a").1 (expand exampleEnv "a").2
      = .ok exampleSource ∧
    exampleEnv.newClientFromAlias (expand exampleEnv "m").1 (expand exampleEnv "m").2
      = .ok exampleTargetSame ∧
    (∀ c ∈ exampleSource.List true false, c.Err = none) ∧
    (∀ c ∈ exampleSource.List true false, c.Type_.IsDir = false →
      (classify exampleEnv exampleLocalsSame exampleODSame () c).1
        = (differ.differNone, none)) ∧
    unitsOf (deltaSourceTargets exampleEnv "a" "m" true false) = [] ∧
    unitsOf (deltaSourceTargets exampleEnv "a" "m" false false) = [] := by
  have hok : ∀ c ∈ exampleSource.List true false, c.Err = none := by decide
  have hnone : ∀ c ∈ exampleSource.List true false, c.Type_.IsDir = false →
      (classify exampleEnv exampleLocalsSame exampleODSame () c).1
        = (differ.differNone, none) := by decide
  have hsplit : ∀ before c after, exampleSource.List true false = before ++ c :: after →
      c.Type_.IsDir = false →
      (classify exampleEnv exampleLocalsSame exampleODSame
        (stateAfter exampleEnv exampleLocalsSame exampleODSame exampleODSame.init before) c).1
        = (differ.differNone, none) := by
    intro before c after h hdir
    exact hnone c (by rw [h]; simp) hdir
  exact ⟨rfl, rfl, hok, hnone,
    deltaSourceTargets_idempotent exampleEnv "a" "m" true false exampleSource
      exampleTargetSame exampleLocalsSame exampleODSame rfl rfl rfl rfl hok hsplit,
    deltaSourceTargets_idempotent exampleEnv "a" "m" false false exampleSource
      exampleTargetSame exampleLocalsSame exampleODSame rfl rfl rfl rfl hok hsplit⟩

/-! ## The retry loop -/

/-- The loop stops at the first attempt that `isValidRetry` rejects. -/
theorem retryLoop_stops {ε : Type} (retryable : ε → Bool) (PutBucket : Nat → Option ε)
    (m : Nat) : ∀ (n calls : Nat) (err : Option ε), m < n →
    (∀ j, j < m → isValidRetry retryable (PutBucket (calls + j)) = true) →
    isValidRetry retryable (PutBucket (calls + m)) = false →
    retryLoop retryable PutBucket n calls err = (calls + m + 1, PutBucket (calls + m)) := by
  induction m with
  | zero =>
    intro n calls err hn _ hstop
    obtain ⟨n, rfl⟩ : ∃ k, n = k + 1 := ⟨n - 1, by omega⟩
    simp only [Nat.add_zero] at hstop
    simp [retryLoop, hstop]
  | succ m ih =>
    intro n calls err hn hretry hstop
    obtain ⟨n, rfl⟩ : ∃ k, n = k + 1 := ⟨n - 1, by omega⟩
    have h0 : isValidRetry retryable (PutBucket calls) = true := by
      have := hretry 0 (by omega)
      simpa using this
    have hrec := ih n (calls + 1) (PutBucket calls) (by omega)
      (fun j hj => by
        have := hretry (j + 1) (by omega)
        rw [show calls + 1 + j = calls + (j + 1) by omega]
        exact this)
      (by rw [show calls + 1 + m = calls + (m + 1) by omega]; exact hstop)
    simp only [retryLoop, h0, Bool.not_true, Bool.false_eq_true, if_false]
    rw [hrec]
    simp only [Prod.mk.injEq]
    constructor
    · omega
    · rw [show calls + 1 + m = calls + (m + 1) by omega]

/-- With every attempt retryable, the loop uses all its attempts. -/
theorem retryLoop_exhausts {ε : Type} (retryable : ε → Bool) (PutBucket : Nat → Option ε)
    (n : Nat) : ∀ (calls : Nat) (err : Option ε),
    (∀ j, j < n + 1 → isValidRetry retryable (PutBucket (calls + j)) = true) →
    retryLoop retryable PutBucket (n + 1) calls err = (calls + n + 1, PutBucket (calls + n)) := by
  induction n with
  | zero =>
    intro calls err hretry
    have h0 : isValidRetry retryable (PutBucket calls) = true := by
      have := hretry 0 (by omega)
      simpa using this
    simp [retryLoop, h0]
  | succ n ih =>
    intro calls err hretry
    have h0 : isValidRetry retryable (PutBucket calls) = true := by
      have := hretry 0 (by omega)
      simpa using this
    have hrec := ih (calls + 1) (PutBucket calls) (fun j hj => by
      have := hretry (j + 1) (by omega)
      rw [show calls + 1 + j = calls + (j + 1) by omega]
      exact this)
    rw [retryLoop]
    simp only [h0, Bool.not_true, Bool.false_eq_true, if_false]
    rw [hrec]
    simp only [Prod.mk.injEq]
    constructor
    · omega
    · rw [show calls + 1 + n = calls + (n + 1) by omega]

/-- The loop either stops at a first rejected attempt or uses all its attempts. -/
theorem retryLoop_first {ε : Type} (retryable : ε → Bool) (PutBucket : Nat → Option ε)
    (n : Nat) :
    (∃ m, m < n + 1 ∧ (∀ j, j < m → isValidRetry retryable (PutBucket j) = true) ∧
      isValidRetry retryable (PutBucket m) = false) ∨
    (∀ j, j < n + 1 → isValidRetry retryable (PutBucket j) = true) := by
  induction n with
  | zero =>
    cases h : isValidRetry retryable (PutBucket 0) with
    | false => exact Or.inl ⟨0, by omega, fun j hj => by omega, h⟩
    | true =>
      refine Or.inr (fun j hj => ?_)
      have : j = 0 := by omega
      subst this
      exact h
  | succ n ih =>
    rcases ih with ⟨m, hm, h1, h2⟩ | hall
    · exact Or.inl ⟨m, by omega, h1, h2⟩
    · cases h : isValidRetry retryable (PutBucket (n + 1)) with
      | false => exact Or.inl ⟨n + 1, by omega, fun j hj => hall j hj, h⟩
      | true =>
        refine Or.inr (fun j hj => ?_)
        rcases Nat.lt_or_ge j (n + 1) with hlt | hge
        · exact hall j hlt
        · have : j = n + 1 := by omega
          subst this
          exact h

/-- C9: with the ceiling of 5 attempts, for every sequence of `PutBucket` outcomes the loop
calls `PutBucket` exactly `k` times, where `1 ≤ k ≤ 5`, every attempt before the `k`-th was a
failure that `isValidRetry` accepts, and the `k`-th attempt succeeded or failed with an error
that `isValidRetry` rejects, or else `k = 5`; the error after the loop is the outcome of the
`k`-th attempt.  In particular `n - 1` retryable failures followed by a success give `n`
attempts and no error (for every `n` up to the ceiling), and a rejected error on the first
attempt gives one attempt and that error. -/
theorem doMakeBucketCmd_attempts {ε : Type} (retryable : ε → Bool)
    (PutBucket : Nat → Option ε) :
    (∃ k, 1 ≤ k ∧ k ≤ 5 ∧
      doMakeBucketCmd retryable PutBucket = (k, PutBucket (k - 1)) ∧
      (∀ j, j + 1 < k → ∃ e, PutBucket j = some e ∧ isValidRetry retryable (some e) = true) ∧
      (PutBucket (k - 1) = none ∨
        (∃ e, PutBucket (k - 1) = some e ∧ isValidRetry retryable (some e) = false) ∨
        k = 5)) ∧
    (∀ n, 1 ≤ n → n ≤ 5 →
      (∀ j, j + 1 < n → ∃ e, PutBucket j = some e ∧ isValidRetry retryable (some e) = true) →
      PutBucket (n - 1) = none →
      doMakeBucketCmd retryable PutBucket = (n, none)) ∧
    (∀ e, PutBucket 0 = some e → isValidRetry retryable (some e) = false →
      doMakeBucketCmd retryable PutBucket = (1, some e)) := by
  have hsome : ∀ j, isValidRetry retryable (PutBucket j) = true →
      ∃ e, PutBucket j = some e ∧ isValidRetry retryable (some e) = true := by
    intro j h
    cases hp : PutBucket j with
    | none => rw [hp] at h; simp [isValidRetry] at h
    | some e => rw [hp] at h; exact ⟨e, rfl, h⟩
  have hstop : ∀ j, isValidRetry retryable (PutBucket j) = false →
      PutBucket j = none ∨
        ∃ e, PutBucket j = some e ∧ isValidRetry retryable (some e) = false := by
    intro j h
    cases hp : PutBucket j with
    | none => exact Or.inl rfl
    | some e => rw [hp] at h; exact Or.inr ⟨e, rfl, h⟩
  refine ⟨?_, ?_, ?_⟩
  · rcases retryLoop_first retryable PutBucket 4 with ⟨m, hm, h1, h2⟩ | hall
    · refine ⟨m + 1, by omega, by omega, ?_, ?_, ?_⟩
      · have := retryLoop_stops retryable PutBucket m 5 0 none hm
          (fun j hj => by simpa using h1 j hj) (by simpa using h2)
        simpa [doMakeBucketCmd, retryCeiling] using this
      · intro j hj
        exact hsome j (h1 j (by omega))
      · rcases hstop m h2 with h | h
        · exact Or.inl (by simpa using h)
        · exact Or.inr (Or.inl (by simpa using h))
    · refine ⟨5, by omega, by omega, ?_, ?_, Or.inr (Or.inr rfl)⟩
      · have := retryLoop_exhausts retryable PutBucket 4 0 none
          (fun j hj => by simpa using hall j hj)
        simpa [doMakeBucketCmd, retryCeiling] using this
      · intro j hj
        exact hsome j (hall j (by omega))
  · intro n h1 h5 hretry hok
    obtain ⟨m, rfl⟩ : ∃ m, n = m + 1 := ⟨n - 1, by omega⟩
    simp only [Nat.add_sub_cancel] at hok
    have := retryLoop_stops retryable PutBucket m 5 0 none (by omega)
      (fun j hj => by
        obtain ⟨e, he, hv⟩ := hretry j (by omega)
        rw [Nat.zero_add, he]
        exact hv)
      (by rw [Nat.zero_add, hok]; rfl)
    rw [Nat.zero_add, hok] at this
    simpa [doMakeBucketCmd, retryCeiling] using this
  · intro e he hv
    have := retryLoop_stops retryable PutBucket 0 5 0 none (by omega)
      (fun j hj => by omega) (by rw [Nat.add_zero, he]; exact hv)
    rw [Nat.add_zero, he] at this
    simpa [doMakeBucketCmd, retryCeiling] using this

/-- Four retryable failures and a success give five calls and no error; an error that is not
retryable on the first call gives one call and that error. -/
theorem doMakeBucketCmd_attempts_witness :
    doMakeBucketCmd (fun b : Bool => b) exampleOutcomes = (5, none) ∧
    doMakeBucketCmd (fun b : Bool => b) (fun _ => some false) = (1, some false) :=
  ⟨(doMakeBucketCmd_attempts (fun b : Bool => b) exampleOutcomes).2.1 5 (by decide) (by decide)
      (fun j hj => ⟨true, by
        have : j < 4 := by omega
        simp [exampleOutcomes, this], rfl⟩)
      (by decide),
    (doMakeBucketCmd_attempts (fun b : Bool => b) (fun _ => some false)).2.2 false rfl rfl⟩

/-! ## `isEmpty` on the units of a run -/

/-- The unit without content and without error is empty. -/
theorem isEmpty_zero_unit : mirrorURLs.isEmpty {} = .ok true := rfl

/-- A unit with a target content, such as every copy unit, is not empty. -/
theorem isEmpty_with_target (m : mirrorURLs) (c t : clientContent)
    (hs : m.SourceContent = some c) (ht : m.TargetContent = some t) :
    m.isEmpty = .ok false := by
  simp [mirrorURLs.isEmpty, hs, ht]

/-- On a unit without source content that carries an error, `isEmpty` dereferences the nil
`SourceContent`. -/
theorem isEmpty_error_unit (m : mirrorURLs) (err : probeError)
    (hs : m.SourceContent = none) (he : m.Error = some err) :
    m.isEmpty = .error RuntimePanic.nilDereference := by
  simp [mirrorURLs.isEmpty, hs, he]

/-- Every unit of a run is an error unit or the copy unit of a listed entry; `isEmpty` returns
false on the copy units and panics on the error units. -/
theorem isEmpty_on_emitted_units {σ : Type} (env : Env σ) (sourceURL targetURL : String)
    (isForce isFake : Bool) :
    ∀ u ∈ unitsOf (deltaSourceTargets env sourceURL targetURL isForce isFake),
      (u.Error = none ∧ u.isEmpty = .ok false) ∨
      (u.Error ≠ none ∧ u.SourceContent = none ∧
        u.isEmpty = .error RuntimePanic.nilDereference) := by
  have hloop : ∀ (L : Locals) (od : ObjectDifference σ) (xs : List clientContent) (s : σ),
      ∀ u ∈ unitsOf (sourceLoop env L od isForce isFake s xs).1,
        (u.Error = none ∧ u.isEmpty = .ok false) ∨
        (u.Error ≠ none ∧ u.SourceContent = none ∧
          u.isEmpty = .error RuntimePanic.nilDereference) := by
    intro L od xs
    induction xs with
    | nil => intro s u hu; simp [sourceLoop, unitsOf] at hu
    | cons e rest ih =>
      intro s u hu
      simp only [sourceLoop, unitsOf_append, List.mem_append] at hu
      rcases hu with hu | hu
      · rcases loopBody_units_cases env L od isForce isFake s e with h | ⟨err, h⟩ | ⟨_, _, h⟩
        · rw [h] at hu; simp at hu
        · rw [h] at hu
          simp only [List.mem_singleton] at hu
          subst hu
          exact Or.inr ⟨by simp [errorUnit], rfl, rfl⟩
        · rw [h] at hu
          simp only [List.mem_singleton] at hu
          subst hu
          exact Or.inl ⟨rfl, isEmpty_with_target _ _ _ rfl rfl⟩
      · exact ih _ u hu
  intro u hu
  unfold deltaSourceTargets at hu
  rw [unitsOf_append] at hu
  simp only [unitsOf, List.append_nil] at hu
  split at hu
  · simp only [unitsOf, List.mem_singleton] at hu
    subst hu
    exact Or.inr ⟨by simp, rfl, rfl⟩
  · split at hu
    · simp only [unitsOf, List.mem_singleton] at hu
      subst hu
      exact Or.inr ⟨by simp, rfl, rfl⟩
    · simp only [unitsOf] at hu
      exact hloop _ _ _ _ u hu

/-- C10, evaluated on the run from `a` to `b` without flags: the run emits the overwrite error
unit for `a/x.txt` and the copy unit for `a/y.txt`; `isEmpty` returns true on the unit with
nothing set and false on the copy unit, and on the emitted error unit it panics with a nil
dereference instead of returning false. -/
theorem isEmpty_panics_on_emitted_error_unit :
    unitsOf (deltaSourceTargets exampleEnv "a" "b" false false) =
      [{ Error := some ⟨"overwrite not allowed", [["a/x.txt"]]⟩ },
       copyUnit exampleEnv exampleLocals exampleY] ∧
    mirrorURLs.isEmpty { Error := some ⟨"overwrite not allowed", [["a/x.txt"]]⟩ }
      = .error RuntimePanic.nilDereference ∧
    mirrorURLs.isEmpty (copyUnit exampleEnv exampleLocals exampleY) = .ok false ∧
    mirrorURLs.isEmpty {} = .ok true :=
  ⟨rfl, rfl, rfl, rfl⟩

end Mc
